import Mathlib

/-!
Verification of the science-os dialect registration core.

The repository's only source file, src/lib/science/ScienceDialect.cpp, defines
the dialect initializer:

  void mlir::science::ScienceDialect::initialize() {
    addOperations< GET_OP_LIST ... >();
    addTypes< GET_TYPEDEF_LIST ... >();
  }

The descriptor tables, the dialect registry, resolution and verification live
in the generated .inc files and the generic framework, which are not part of
src/; following the spec they are modelled here from its words (sections 3, 4
and 7 of spec.md).  Definitions carrying a doc comment starting with
"Modelled from the spec:" are such models.
-/

/-- Modelled from the spec: error taxonomy of section 7 of spec.md (the error
types raised by the registry and descriptor tables, which are generated or
framework code absent from src/). -/
inductive RegError where
  | duplicateDialect
  | duplicateType
  | duplicateOperation
  | notFound
deriving DecidableEq, Repr

/-- Modelled from the spec: a TypeDescriptor of section 3 of spec.md (name,
parameter schema, printer, parser), absent from src/ because descriptor
construction is generated code.  Parameter values for the science dialect's
types are integers (the spec's tensor schema is rank: integer), modelled as
Nat lists; validParams is the construction-time validation of section 4.1 and
roundTrippable the self-declaration used by the round-trip law of section 8. -/
structure TypeDescriptor where
  name : String
  paramSchema : List (String × String)
  printer : List Nat → String
  parser : String → Option (List Nat)
  validParams : List Nat → Bool
  roundTrippable : Bool

/-- Modelled from the spec: arity specification of an operand or result list
(fixed count, variadic, or variadic-with-minimum), section 3 of spec.md. -/
inductive AritySpec where
  | fixed (n : Nat)
  | variadic
  | variadicMin (n : Nat)
deriving DecidableEq, Repr

/-- Modelled from the spec: one entry of an operation's attribute schema
(section 3 of spec.md): attribute name, expected value type, required flag. -/
structure AttrDecl where
  name : String
  ty : String
  required : Bool
deriving DecidableEq, Repr

/-- Modelled from the spec: an invariant violation reported by verification
(sections 4.2 and 7 of spec.md). -/
inductive InvariantViolation where
  | arity (subject : String)
  | missingAttr (name : String)
  | attrType (name : String)
  | traitViolation (name : String)
  | custom (msg : String)
deriving DecidableEq, Repr

/-- Modelled from the spec: an operation instance as seen by the verifier
(section 4.2 of spec.md): operand and result counts for the arity checks and
a list of (attribute name, value type) pairs for the attribute checks. -/
structure OpInstance where
  numOperands : Nat
  numResults : Nat
  attrs : List (String × String)

/-- Modelled from the spec: a structural trait an operation declares, with
its structural check (section 3 of spec.md). -/
structure OpTrait where
  name : String
  check : OpInstance → List InvariantViolation

/-- Modelled from the spec: an OperationDescriptor of section 3 of spec.md
(name, operand and result arity, attribute schema, trait set, custom
verifier hook), absent from src/ because descriptor construction is
generated code. -/
structure OperationDescriptor where
  name : String
  operandArity : AritySpec
  resultArity : AritySpec
  attrSchema : List AttrDecl
  traits : List OpTrait
  verifier : OpInstance → List InvariantViolation

/-- First-match lookup of a descriptor by name in a table, generic in the
name projection. -/
def lookupBy {α : Type} (nm : α → String) : List α → String → Option α
  | [], _ => none
  | d :: rest, n => if nm d = n then some d else lookupBy nm rest n

/-- Modelled from the spec: register of sections 4.1 and 4.2 of spec.md,
generic in the name projection and the duplicate error; fails when a
descriptor of the same name is already present, otherwise appends. -/
def registerBy {α : Type} (nm : α → String) (dup : RegError) (tbl : List α) (d : α) :
    Except RegError (List α) :=
  match lookupBy nm tbl (nm d) with
  | some _ => .error dup
  | none => .ok (tbl ++ [d])

/-- Register a whole list of descriptors in order, stopping at the first
duplicate error. -/
def registerAllBy {α : Type} (nm : α → String) (dup : RegError) :
    List α → List α → Except RegError (List α)
  | tbl, [] => .ok tbl
  | tbl, d :: ds =>
    match registerBy nm dup tbl d with
    | .error e => .error e
    | .ok t => registerAllBy nm dup t ds

def lookupType (tbl : List TypeDescriptor) (n : String) : Option TypeDescriptor :=
  lookupBy TypeDescriptor.name tbl n

def lookupOp (tbl : List OperationDescriptor) (n : String) : Option OperationDescriptor :=
  lookupBy OperationDescriptor.name tbl n

/-- Modelled from the spec: register of section 4.1 of spec.md for the Type
Descriptor Table. -/
def registerType (tbl : List TypeDescriptor) (d : TypeDescriptor) :
    Except RegError (List TypeDescriptor) :=
  registerBy TypeDescriptor.name RegError.duplicateType tbl d

/-- Modelled from the spec: register of section 4.2 of spec.md for the
Operation Descriptor Table, same policy, separate namespace. -/
def registerOp (tbl : List OperationDescriptor) (d : OperationDescriptor) :
    Except RegError (List OperationDescriptor) :=
  registerBy OperationDescriptor.name RegError.duplicateOperation tbl d

/-- Modelled from the spec: a DialectRegistryEntry of section 3 of spec.md,
owning one type table and one operation table. -/
structure DialectEntry where
  types : List TypeDescriptor
  ops : List OperationDescriptor

/-- Modelled from the spec: registration of a type into a dialect entry;
touches only the entry's type table (types and operations draw from separate
namespaces, section 3 of spec.md). -/
def entryRegisterType (e : DialectEntry) (d : TypeDescriptor) :
    Except RegError DialectEntry :=
  match registerType e.types d with
  | .error err => .error err
  | .ok ts => .ok { e with types := ts }

/-- Modelled from the spec: registration of an operation into a dialect
entry; touches only the entry's operation table. -/
def entryRegisterOp (e : DialectEntry) (d : OperationDescriptor) :
    Except RegError DialectEntry :=
  match registerOp e.ops d with
  | .error err => .error err
  | .ok os => .ok { e with ops := os }

/-- The process-wide dialect registry of section 3 of spec.md: entries keyed
by dialect id. -/
abbrev Registry := List (String × DialectEntry)

/-- First-match association lookup by string key. -/
def assocLookup {β : Type} : List (String × β) → String → Option β
  | [], _ => none
  | (k, v) :: rest, n => if k = n then some v else assocLookup rest n

def lookupDialect (reg : Registry) (id : String) : Option DialectEntry :=
  assocLookup reg id

/-- Modelled from the spec: registerDialect of section 4.3 of spec.md; fails
with duplicateDialect when the id is already registered, leaving the registry
unchanged, otherwise adds the entry.  The pair returns the resulting registry
state together with the optional error, so that absence of partial mutation
on failure is a provable statement. -/
def registerDialect (reg : Registry) (id : String) (e : DialectEntry) :
    Registry × Option RegError :=
  match lookupDialect reg id with
  | some _ => (reg, some RegError.duplicateDialect)
  | none => ((id, e) :: reg, none)

/-- A whole registration sequence of dialect entries, performed in order and
stopped at the first failure: the shape of the startup phase of section 2 of
spec.md, in which each domain's initializer registers its entry once. -/
def registerDialectsAll : Registry → List (String × DialectEntry) → Registry × Option RegError
  | reg, [] => (reg, none)
  | reg, (id, e) :: rest =>
    match registerDialect reg id e with
    | (r, none) => registerDialectsAll r rest
    | (r, some err) => (r, some err)

/-- Split a character list at the first dot. -/
def splitDot : List Char → Option (List Char × List Char)
  | [] => none
  | c :: cs =>
    if c = '.' then some ([], cs)
    else (splitDot cs).map fun p => (c :: p.1, p.2)

/-- Modelled from the spec: a qualified name dialectId ++ "." ++ localName is
split on the first separator (section 4.3 of spec.md). -/
def splitQualified (s : String) : Option (String × String) :=
  (splitDot s.data).map fun p => (String.mk p.1, String.mk p.2)

/-- Modelled from the spec: resolveType of section 4.3 of spec.md; splits the
qualified name on the first separator, looks up the dialect, then the local
type table. -/
def resolveType (reg : Registry) (q : String) : Except RegError TypeDescriptor :=
  match splitQualified q with
  | none => .error RegError.notFound
  | some (d, l) =>
    match lookupDialect reg d with
    | none => .error RegError.notFound
    | some e =>
      match lookupType e.types l with
      | none => .error RegError.notFound
      | some td => .ok td

/-- Modelled from the spec: resolveOperation of section 4.3 of spec.md. -/
def resolveOperation (reg : Registry) (q : String) : Except RegError OperationDescriptor :=
  match splitQualified q with
  | none => .error RegError.notFound
  | some (d, l) =>
    match lookupDialect reg d with
    | none => .error RegError.notFound
    | some e =>
      match lookupOp e.ops l with
      | none => .error RegError.notFound
      | some od => .ok od

/-- Modelled from the spec: the arity check of section 4.2 of spec.md for one
arity specification against an actual count; a variadic-with-minimum spec
violates arity exactly when the count is below the minimum. -/
def arityCheck (spec : AritySpec) (count : Nat) (subject : String) :
    List InvariantViolation :=
  match spec with
  | .fixed n => if count = n then [] else [.arity subject]
  | .variadic => []
  | .variadicMin m => if m ≤ count then [] else [.arity subject]

/-- Step (a) of verify: operand then result arity, accumulated. -/
def arityViolations (d : OperationDescriptor) (i : OpInstance) :
    List InvariantViolation :=
  arityCheck d.operandArity i.numOperands "operands" ++
    arityCheck d.resultArity i.numResults "results"

/-- Modelled from the spec: the check of one declared attribute (section 4.2
of spec.md): present with the wrong value type is a violation, absent is a
violation exactly when required; attributes of the instance not named by the
schema are never consulted. -/
def attrCheckOne (decl : AttrDecl) (attrs : List (String × String)) :
    List InvariantViolation :=
  match assocLookup attrs decl.name with
  | some t => if t = decl.ty then [] else [.attrType decl.name]
  | none => if decl.required then [.missingAttr decl.name] else []

/-- Step (b) of verify: every declared attribute checked, accumulated in
schema order. -/
def attrViolations (d : OperationDescriptor) (i : OpInstance) :
    List InvariantViolation :=
  d.attrSchema.foldr (fun a acc => attrCheckOne a i.attrs ++ acc) []

/-- Step (c) of verify: every declared trait's structural check, accumulated
in declaration order. -/
def traitViolations (d : OperationDescriptor) (i : OpInstance) :
    List InvariantViolation :=
  d.traits.foldr (fun t acc => t.check i ++ acc) []

/-- The structural violations: steps (a), (b), (c) in order, accumulated
without short-circuiting. -/
def structuralViolations (d : OperationDescriptor) (i : OpInstance) :
    List InvariantViolation :=
  arityViolations d i ++ attrViolations d i ++ traitViolations d i

/-- Modelled from the spec: verify of section 4.2 of spec.md; the custom
verifier hook (step (d)) runs exactly when the structural steps (a), (b), (c)
found nothing. -/
def verify (d : OperationDescriptor) (i : OpInstance) : List InvariantViolation :=
  match structuralViolations d i with
  | [] => d.verifier i
  | vs => vs

/-- Digit value to character, for the tensor printer. -/
def digitChar (d : Nat) : Char := Char.ofNat (48 + d)

/-- Character to digit value, for the tensor parser. -/
def charVal (c : Char) : Nat := c.toNat - 48

/-- Decimal digit test. -/
def isDigitChar (c : Char) : Bool := 48 ≤ c.toNat && c.toNat ≤ 57

/-- Big-endian decimal digits of a positive number, fuel-recursive so that it
evaluates in the kernel. -/
def natCharsAux : Nat → Nat → List Char → List Char
  | 0, _, acc => acc
  | fuel + 1, n, acc =>
    if n = 0 then acc else natCharsAux fuel (n / 10) (digitChar (n % 10) :: acc)

/-- Decimal rendering of a natural number. -/
def natChars (n : Nat) : List Char :=
  if n = 0 then ['0'] else natCharsAux n n []

/-- Little-endian decimal valuation of a digit list. -/
def digitsVal : List Nat → Nat
  | [] => 0
  | d :: ds => d + 10 * digitsVal ds

/-- Decimal reading of a natural number: every character must be a digit and
at least one digit must be present. -/
def charsNat (cs : List Char) : Option Nat :=
  if cs.isEmpty then none
  else if cs.all isDigitChar then some (digitsVal (cs.reverse.map charVal))
  else none

/-- Strip an expected leading character sequence. -/
def stripPre : List Char → List Char → Option (List Char)
  | [], s => some s
  | _ :: _, [] => none
  | p :: ps, c :: cs => if c = p then stripPre ps cs else none

/-- Strip an expected final character. -/
def stripLast (c : Char) (cs : List Char) : Option (List Char) :=
  match cs.reverse with
  | [] => none
  | x :: rest => if x = c then some rest.reverse else none

/-- The leading characters of the tensor type's printed form. -/
def tensorHead : List Char := ['t', 'e', 'n', 's', 'o', 'r', '<']

/-- Modelled from the spec: the printed form of the science tensor type over
its one rank parameter (section 8 of spec.md names the schema rank: integer;
the concrete syntax is the spec's replaceable external format). -/
def tensorPrintChars (ps : List Nat) : List Char :=
  match ps with
  | [r] => tensorHead ++ (natChars r ++ ['>'])
  | _ => []

def tensorPrint (ps : List Nat) : String := String.mk (tensorPrintChars ps)

/-- Modelled from the spec: the parser of the science tensor type, inverse of
the printer on valid parameter lists. -/
def tensorParseChars (cs : List Char) : Option (List Nat) :=
  (stripPre tensorHead cs).bind fun rest =>
    (stripLast '>' rest).bind fun mid => (charsNat mid).map fun n => [n]

def tensorParse (s : String) : Option (List Nat) := tensorParseChars s.data

/-- Modelled from the spec: the science tensor type descriptor with parameter
schema rank: integer (section 8 of spec.md); it declares itself
round-trippable.  The generated ScienceOpsTypes.cpp.inc listing the dialect's
typedefs is not part of src/. -/
def tensorDesc : TypeDescriptor where
  name := "tensor"
  paramSchema := [("rank", "integer")]
  printer := tensorPrint
  parser := tensorParse
  validParams := fun ps => ps.length == 1
  roundTrippable := true

/-- Modelled from the spec: the science matmul operation descriptor (section
8 of spec.md: operand arity fixed 2, result arity fixed 1, required attribute
precision).  The generated ScienceOps.cpp.inc listing the dialect's
operations is not part of src/. -/
def matmulDesc : OperationDescriptor where
  name := "matmul"
  operandArity := .fixed 2
  resultArity := .fixed 1
  attrSchema := [⟨"precision", "string", true⟩]
  traits := []
  verifier := fun _ => []

/-- Modelled from the spec: an operation with variadic operands and minimum
count 2, the arity-boundary example of section 8 of spec.md. -/
def vsumDesc : OperationDescriptor where
  name := "vsum"
  operandArity := .variadicMin 2
  resultArity := .fixed 1
  attrSchema := []
  traits := []
  verifier := fun _ => []

/-- The science dialect's generated operation list: what GET_OP_LIST expands
to in ScienceDialect.cpp.  Modelled from the spec: the generated .inc file is
not in src/; the spec's section 8 scenario names matmul. -/
def scienceOpList : List OperationDescriptor := [matmulDesc, vsumDesc]

/-- The science dialect's generated typedef list: what GET_TYPEDEF_LIST
expands to in ScienceDialect.cpp.  Modelled from the spec: the generated .inc
file is not in src/; the spec's section 8 scenario names tensor. -/
def scienceTypeList : List TypeDescriptor := [tensorDesc]

/-- The dialect entry the initializer registers: its operation table from
addOperations over the generated operation list, its type table from addTypes
over the generated typedef list. -/
def scienceEntry : DialectEntry where
  types := scienceTypeList
  ops := scienceOpList

/-- The dialect initializer of ScienceDialect.cpp lines 10 to 19, lifted to
the registry model: one registration of the science entry under the dialect
id, surfacing duplicateDialect from the registry on a second call (sections
4.3 and 4.4 of spec.md). -/
def scienceInitialize (reg : Registry) : Registry × Option RegError :=
  registerDialect reg "science" scienceEntry

/-- One registration event of the initializer, for the ordering argument. -/
inductive RegEvent where
  | op (name : String)
  | ty (name : String)
deriving DecidableEq, Repr

def isOpEvent : RegEvent → Bool
  | .op _ => true
  | .ty _ => false

def isTyEvent : RegEvent → Bool
  | .op _ => false
  | .ty _ => true

/-- The sequence of registration events one call of
ScienceDialect::initialize performs: addOperations over the whole generated
operation list, then addTypes over the whole generated typedef list, in that
textual order (ScienceDialect.cpp lines 11 to 18). -/
def initializeTrace : List RegEvent :=
  scienceOpList.map (fun d => RegEvent.op d.name) ++
    scienceTypeList.map (fun d => RegEvent.ty d.name)

/-- The registry state after the science dialect's startup registration into
an empty registry. -/
def scienceRegistry : Registry := (scienceInitialize []).1

/-- A type descriptor sharing the name of the matmul operation, for the
separate-namespaces argument. -/
def matmulTypeDesc : TypeDescriptor :=
  { tensorDesc with name := "matmul" }

/-- Modelled from the spec: the round-trip law of section 8 of spec.md for
one type descriptor: parsing the printed form of any parameter list that
passed construction-time validation yields the parameters back. -/
def RoundTripOK (d : TypeDescriptor) : Prop :=
  ∀ ps, d.validParams ps = true → d.parser (d.printer ps) = some ps

/-- A matmul instance with both operands, its result and the required
precision attribute set (section 8 of spec.md scenario). -/
def matmulOk : OpInstance := ⟨2, 1, [("precision", "string")]⟩

/-- The same matmul instance with the required precision attribute absent. -/
def matmulMissing : OpInstance := ⟨2, 1, []⟩

/-- An instance of the variadic-minimum-2 operation with exactly 2 operands. -/
def vsumTwo : OpInstance := ⟨2, 1, []⟩

/-- An instance of the variadic-minimum-2 operation with exactly 1 operand. -/
def vsumOne : OpInstance := ⟨1, 1, []⟩

/-- Index of the first operation-registration event of the initializer. -/
def opIdx : Fin initializeTrace.length := ⟨0, by decide⟩

/-- Index of the first type-registration event of the initializer. -/
def tyIdx : Fin initializeTrace.length := ⟨2, by decide⟩

theorem lookupBy_eq_none_iff {α : Type} (nm : α → String) (tbl : List α) (n : String) :
    lookupBy nm tbl n = none ↔ ∀ t ∈ tbl, nm t ≠ n := by
  induction tbl with
  | nil => simp [lookupBy]
  | cons d rest ih =>
    by_cases h : nm d = n
    · simp [lookupBy, h]
    · simp [lookupBy, h, ih]

theorem lookupBy_eq_some {α : Type} (nm : α → String) (tbl : List α) (n : String)
    (t : α) (h : lookupBy nm tbl n = some t) : t ∈ tbl ∧ nm t = n := by
  induction tbl with
  | nil => simp [lookupBy] at h
  | cons d rest ih =>
    by_cases hd : nm d = n
    · simp [lookupBy, hd] at h
      subst h
      exact ⟨List.mem_cons_self d rest, hd⟩
    · simp [lookupBy, hd] at h
      obtain ⟨hm, he⟩ := ih h
      exact ⟨List.mem_cons_of_mem d hm, he⟩

theorem lookupBy_append_of_none {α : Type} (nm : α → String) (tbl l : List α) (n : String)
    (h : lookupBy nm tbl n = none) : lookupBy nm (tbl ++ l) n = lookupBy nm l n := by
  induction tbl with
  | nil => rfl
  | cons d rest ih =>
    by_cases hd : nm d = n
    · simp [lookupBy, hd] at h
    · simp [lookupBy, hd] at h ⊢
      exact ih h

theorem lookupBy_append_of_some {α : Type} (nm : α → String) (tbl l : List α) (n : String)
    (t : α) (h : lookupBy nm tbl n = some t) : lookupBy nm (tbl ++ l) n = some t := by
  induction tbl with
  | nil => simp [lookupBy] at h
  | cons d rest ih =>
    by_cases hd : nm d = n
    · simp [lookupBy, hd] at h ⊢
      exact h
    · simp [lookupBy, hd] at h ⊢
      exact ih h

theorem registerBy_error_iff {α : Type} (nm : α → String) (dup : RegError)
    (tbl : List α) (d : α) :
    registerBy nm dup tbl d = .error dup ↔ ∃ t ∈ tbl, nm t = nm d := by
  unfold registerBy
  cases h : lookupBy nm tbl (nm d) with
  | none =>
    rw [lookupBy_eq_none_iff] at h
    constructor
    · intro he
      exact Except.noConfusion he
    · rintro ⟨t, hm, he⟩
      exact absurd he (h t hm)
  | some t =>
    obtain ⟨hm, he⟩ := lookupBy_eq_some nm tbl (nm d) t h
    exact iff_of_true rfl ⟨t, hm, he⟩

theorem registerBy_ok {α : Type} (nm : α → String) (dup : RegError)
    (tbl : List α) (d : α) (h : lookupBy nm tbl (nm d) = none) :
    registerBy nm dup tbl d = .ok (tbl ++ [d]) := by
  unfold registerBy
  rw [h]

theorem registerBy_ok_inv {α : Type} (nm : α → String) (dup : RegError)
    (tbl t : List α) (d : α) (h : registerBy nm dup tbl d = .ok t) :
    lookupBy nm tbl (nm d) = none ∧ t = tbl ++ [d] := by
  unfold registerBy at h
  cases hl : lookupBy nm tbl (nm d) with
  | none =>
    rw [hl] at h
    injection h with h'
    exact ⟨rfl, h'.symm⟩
  | some u =>
    rw [hl] at h
    exact Except.noConfusion h

theorem registerAllBy_preserves {α : Type} (nm : α → String) (dup : RegError)
    (ds : List α) : ∀ (tbl tbl' : List α) (n : String) (t : α),
    registerAllBy nm dup tbl ds = .ok tbl' →
    lookupBy nm tbl n = some t → lookupBy nm tbl' n = some t := by
  induction ds with
  | nil =>
    intro tbl tbl' n t h hl
    unfold registerAllBy at h
    cases h
    exact hl
  | cons d rest ih =>
    intro tbl tbl' n t h hl
    unfold registerAllBy at h
    cases hr : registerBy nm dup tbl d with
    | error e => rw [hr] at h; exact absurd h (by simp)
    | ok u =>
      rw [hr] at h
      obtain ⟨-, hu⟩ := registerBy_ok_inv nm dup tbl u d hr
      subst hu
      exact ih (tbl ++ [d]) tbl' n t h (lookupBy_append_of_some nm tbl [d] n t hl)

theorem registerAllBy_lookup {α : Type} (nm : α → String) (dup : RegError)
    (ds : List α) : ∀ (tbl tbl' : List α),
    registerAllBy nm dup tbl ds = .ok tbl' →
    ∀ d ∈ ds, lookupBy nm tbl' (nm d) = some d := by
  induction ds with
  | nil => intro tbl tbl' _ d hd; simp at hd
  | cons d rest ih =>
    intro tbl tbl' h e he
    unfold registerAllBy at h
    cases hr : registerBy nm dup tbl d with
    | error err => rw [hr] at h; exact absurd h (by simp)
    | ok u =>
      rw [hr] at h
      obtain ⟨hnone, hu⟩ := registerBy_ok_inv nm dup tbl u d hr
      subst hu
      rcases List.mem_cons.mp he with he | he
      · subst he
        have hbase : lookupBy nm (tbl ++ [e]) (nm e) = some e := by
          rw [lookupBy_append_of_none nm tbl [e] (nm e) hnone]
          simp [lookupBy]
        exact registerAllBy_preserves nm dup rest (tbl ++ [e]) tbl' (nm e) e h hbase
      · exact ih (tbl ++ [d]) tbl' h e he

theorem splitDot_append (d l : List Char) (h : '.' ∉ d) :
    splitDot (d ++ '.' :: l) = some (d, l) := by
  induction d with
  | nil => simp [splitDot]
  | cons c cs ih =>
    have hc : ¬(c = '.') := fun e => h (e ▸ List.mem_cons_self c cs)
    have hcs : '.' ∉ cs := fun m => h (List.mem_cons_of_mem _ m)
    have hstep : splitDot (c :: (cs ++ '.' :: l)) =
        (splitDot (cs ++ '.' :: l)).map fun p => (c :: p.1, p.2) := by
      simp [splitDot, hc]
    rw [List.cons_append, hstep, ih hcs]
    rfl

theorem splitQualified_append (dc lc : List Char) (h : '.' ∉ dc) :
    splitQualified (String.mk (dc ++ '.' :: lc)) = some (String.mk dc, String.mk lc) := by
  unfold splitQualified
  rw [show (String.mk (dc ++ '.' :: lc)).data = dc ++ '.' :: lc from rfl,
    splitDot_append dc lc h]
  rfl

theorem assocLookup_cons_ne {β : Type} (k n : String) (v : β)
    (rest : List (String × β)) (h : ¬(k = n)) :
    assocLookup ((k, v) :: rest) n = assocLookup rest n := by
  simp [assocLookup, h]

theorem attrCheckOne_undeclared (a : AttrDecl) (n v : String)
    (attrs : List (String × String)) (h : a.name ≠ n) :
    attrCheckOne a ((n, v) :: attrs) = attrCheckOne a attrs := by
  unfold attrCheckOne
  rw [assocLookup_cons_ne n a.name v attrs (fun e => h e.symm)]

theorem attrFold_congr (schema : List AttrDecl)
    (f g : AttrDecl → List InvariantViolation) (h : ∀ a ∈ schema, f a = g a) :
    schema.foldr (fun a acc => f a ++ acc) [] =
      schema.foldr (fun a acc => g a ++ acc) [] := by
  induction schema with
  | nil => rfl
  | cons a rest ih =>
    simp only [List.foldr_cons]
    rw [h a (List.mem_cons_self a rest),
      ih (fun b hb => h b (List.mem_cons_of_mem a hb))]

theorem charVal_digitChar : ∀ d, d < 10 → charVal (digitChar d) = d := by decide

theorem isDigitChar_digitChar : ∀ d, d < 10 → isDigitChar (digitChar d) = true := by
  decide

theorem digitsVal_eq_ofDigits (ds : List Nat) : digitsVal ds = Nat.ofDigits 10 ds := by
  induction ds with
  | nil => simp [digitsVal, Nat.ofDigits_nil]
  | cons d rest ih => simp [digitsVal, Nat.ofDigits_cons, ih]

theorem natCharsAux_eq : ∀ (fuel n : Nat) (acc : List Char), n ≤ fuel →
    natCharsAux fuel n acc = (Nat.digits 10 n).reverse.map digitChar ++ acc := by
  intro fuel
  induction fuel with
  | zero =>
    intro n acc h
    have hn : n = 0 := Nat.le_zero.mp h
    subst hn
    simp [natCharsAux]
  | succ f ih =>
    intro n acc h
    by_cases hz : n = 0
    · subst hz
      simp [natCharsAux]
    · have hpos : 0 < n := Nat.pos_of_ne_zero hz
      have hstep : natCharsAux (f + 1) n acc =
          natCharsAux f (n / 10) (digitChar (n % 10) :: acc) := by
        simp [natCharsAux, hz]
      have hdiv : n / 10 ≤ f := by
        have : n / 10 < n := Nat.div_lt_self hpos (by norm_num)
        omega
      rw [hstep, ih (n / 10) (digitChar (n % 10) :: acc) hdiv,
        Nat.digits_def' (by norm_num : (1 : Nat) < 10) hpos]
      simp [List.reverse_cons, List.map_append, List.append_assoc]

theorem charsNat_natChars (n : Nat) : charsNat (natChars n) = some n := by
  by_cases hz : n = 0
  · subst hz
    rfl
  · have hnc : natChars n = (Nat.digits 10 n).reverse.map digitChar := by
      unfold natChars
      rw [if_neg hz, natCharsAux_eq n n [] (Nat.le_refl n), List.append_nil]
    have hne : (Nat.digits 10 n).reverse.map digitChar ≠ [] := by
      intro he
      rw [List.map_eq_nil_iff, List.reverse_eq_nil_iff] at he
      exact Nat.digits_ne_nil_iff_ne_zero.mpr hz he
    have hall : ((Nat.digits 10 n).reverse.map digitChar).all isDigitChar = true := by
      rw [List.all_eq_true]
      intro c hc
      rw [List.mem_map] at hc
      obtain ⟨d, hd, he⟩ := hc
      rw [List.mem_reverse] at hd
      subst he
      exact isDigitChar_digitChar d (Nat.digits_lt_base (by norm_num) hd)
    have hval : (((Nat.digits 10 n).reverse.map digitChar).reverse.map charVal) =
        Nat.digits 10 n := by
      rw [← List.map_reverse, List.reverse_reverse, List.map_map]
      have : ∀ d ∈ Nat.digits 10 n, (charVal ∘ digitChar) d = id d := by
        intro d hd
        exact charVal_digitChar d (Nat.digits_lt_base (by norm_num) hd)
      rw [List.map_congr_left this, List.map_id]
    rw [hnc]
    unfold charsNat
    rw [if_neg (by simp only [List.isEmpty_iff]; exact hne), if_pos hall, hval,
      digitsVal_eq_ofDigits, Nat.ofDigits_digits]

theorem stripPre_append (p s : List Char) : stripPre p (p ++ s) = some s := by
  induction p with
  | nil => rfl
  | cons c cs ih => simp [stripPre, ih]

theorem stripLast_append (l : List Char) (c : Char) :
    stripLast c (l ++ [c]) = some l := by
  unfold stripLast
  rw [List.reverse_append]
  simp [List.reverse_reverse]

theorem tensorDesc_roundTrip : RoundTripOK tensorDesc := by
  intro ps hv
  have hv' : (ps.length == 1) = true := hv
  have hlen : ps.length = 1 := by simpa using hv'
  obtain ⟨r, hr⟩ := List.length_eq_one.mp hlen
  subst hr
  show tensorParse (tensorPrint [r]) = some [r]
  unfold tensorParse tensorPrint tensorParseChars
  rw [show (String.mk (tensorPrintChars [r])).data = tensorPrintChars [r] from rfl,
    show tensorPrintChars [r] = tensorHead ++ (natChars r ++ ['>']) from rfl,
    stripPre_append tensorHead (natChars r ++ ['>'])]
  simp [stripLast_append, charsNat_natChars]

theorem registerDialectsAll_preserves :
    ∀ (entries : List (String × DialectEntry)) (r r' : Registry) (x : String)
      (v : DialectEntry),
    registerDialectsAll r entries = (r', none) →
    lookupDialect r x = some v → lookupDialect r' x = some v := by
  intro entries
  induction entries with
  | nil =>
    intro r r' x v h hl
    have h' : (r, (none : Option RegError)) = (r', (none : Option RegError)) := h
    injection h' with h1 _
    rw [← h1]
    exact hl
  | cons p rest ih =>
    intro r r' x v h hl
    obtain ⟨id, e⟩ := p
    unfold registerDialectsAll at h
    cases hd : lookupDialect r id with
    | some w =>
      rw [show registerDialect r id e = (r, some RegError.duplicateDialect) from by
        unfold registerDialect; rw [hd]] at h
      have h' : (r, some RegError.duplicateDialect) = (r', (none : Option RegError)) := h
      injection h' with _ h2
      exact Option.noConfusion h2
    | none =>
      rw [show registerDialect r id e = ((id, e) :: r, none) from by
        unfold registerDialect; rw [hd]] at h
      have h' : registerDialectsAll ((id, e) :: r) rest = (r', none) := h
      have hx : ¬(id = x) := by
        intro he
        rw [he] at hd
        rw [hd] at hl
        exact Option.noConfusion hl
      have hcons : lookupDialect ((id, e) :: r) x = some v := by
        show assocLookup ((id, e) :: r) x = some v
        rw [assocLookup_cons_ne id x e r hx]
        exact hl
      exact ih ((id, e) :: r) r' x v h' hcons

theorem registerDialectsAll_lookup :
    ∀ (entries : List (String × DialectEntry)) (r r' : Registry)
      (id : String) (e : DialectEntry),
    registerDialectsAll r entries = (r', none) →
    (id, e) ∈ entries → lookupDialect r' id = some e := by
  intro entries
  induction entries with
  | nil =>
    intro r r' id e h hm
    simp at hm
  | cons p rest ih =>
    intro r r' id e h hm
    obtain ⟨jd, je⟩ := p
    unfold registerDialectsAll at h
    cases hd : lookupDialect r jd with
    | some w =>
      rw [show registerDialect r jd je = (r, some RegError.duplicateDialect) from by
        unfold registerDialect; rw [hd]] at h
      have h' : (r, some RegError.duplicateDialect) = (r', (none : Option RegError)) := h
      injection h' with _ h2
      exact Option.noConfusion h2
    | none =>
      rw [show registerDialect r jd je = ((jd, je) :: r, none) from by
        unfold registerDialect; rw [hd]] at h
      have h' : registerDialectsAll ((jd, je) :: r) rest = (r', none) := h
      rcases List.mem_cons.mp hm with he | hm'
      · have hid : id = jd := congrArg Prod.fst he
        have hee : e = je := congrArg Prod.snd he
        subst hid
        subst hee
        have hbase : lookupDialect ((id, e) :: r) id = some e := by
          show assocLookup ((id, e) :: r) id = some e
          simp [assocLookup]
        exact registerDialectsAll_preserves rest ((id, e) :: r) r' id e h' hbase
      · exact ih ((jd, je) :: r) r' id e h' hm'

theorem resolveType_eval (reg : Registry) (dc : List Char) (l : String)
    (e : DialectEntry) (d : TypeDescriptor) (hdot : '.' ∉ dc)
    (hld : lookupDialect reg (String.mk dc) = some e)
    (hlt : lookupType e.types l = some d) :
    resolveType reg (String.mk (dc ++ '.' :: l.data)) = .ok d := by
  unfold resolveType
  rw [splitQualified_append dc l.data hdot]
  show (match lookupDialect reg (String.mk dc) with
    | none => (Except.error RegError.notFound : Except RegError TypeDescriptor)
    | some en =>
      match lookupType en.types (String.mk l.data) with
      | none => Except.error RegError.notFound
      | some td => Except.ok td) = Except.ok d
  rw [hld]
  show (match lookupType e.types (String.mk l.data) with
    | none => (Except.error RegError.notFound : Except RegError TypeDescriptor)
    | some td => Except.ok td) = Except.ok d
  rw [show String.mk l.data = l from rfl, hlt]

theorem resolveOperation_eval (reg : Registry) (dc : List Char) (l : String)
    (e : DialectEntry) (d : OperationDescriptor) (hdot : '.' ∉ dc)
    (hld : lookupDialect reg (String.mk dc) = some e)
    (hlo : lookupOp e.ops l = some d) :
    resolveOperation reg (String.mk (dc ++ '.' :: l.data)) = .ok d := by
  unfold resolveOperation
  rw [splitQualified_append dc l.data hdot]
  show (match lookupDialect reg (String.mk dc) with
    | none => (Except.error RegError.notFound : Except RegError OperationDescriptor)
    | some en =>
      match lookupOp en.ops (String.mk l.data) with
      | none => Except.error RegError.notFound
      | some od => Except.ok od) = Except.ok d
  rw [hld]
  show (match lookupOp e.ops (String.mk l.data) with
    | none => (Except.error RegError.notFound : Except RegError OperationDescriptor)
    | some od => Except.ok od) = Except.ok d
  rw [show String.mk l.data = l from rfl, hlo]

/-- C1: calling the science dialect initializer a second time always fails
with duplicateDialect surfaced from the registry, and the registry state
after the failed second attempt is exactly the state after the first call:
no mutation of any entry or key. -/
theorem c1_initialize_twice_fails (reg : Registry) :
    (scienceInitialize (scienceInitialize reg).1).2 = some RegError.duplicateDialect ∧
    (scienceInitialize (scienceInitialize reg).1).1 = (scienceInitialize reg).1 := by
  cases h : lookupDialect reg "science" with
  | none =>
    have h1 : scienceInitialize reg = (("science", scienceEntry) :: reg, none) := by
      unfold scienceInitialize registerDialect
      rw [h]
    have h2 : lookupDialect (("science", scienceEntry) :: reg) "science" =
        some scienceEntry := by
      simp [lookupDialect, assocLookup]
    have h3 : scienceInitialize (("science", scienceEntry) :: reg) =
        (("science", scienceEntry) :: reg, some RegError.duplicateDialect) := by
      unfold scienceInitialize registerDialect
      rw [h2]
    rw [h1, h3]
    exact ⟨rfl, rfl⟩
  | some e =>
    have h1 : scienceInitialize reg = (reg, some RegError.duplicateDialect) := by
      unfold scienceInitialize registerDialect
      rw [h]
    rw [h1]
    show (scienceInitialize reg).2 = some RegError.duplicateDialect ∧
      (scienceInitialize reg).1 = reg
    rw [h1]
    exact ⟨rfl, rfl⟩

/-- Witness for C1 at the empty registry. -/
theorem c1_witness :
    (scienceInitialize (scienceInitialize []).1).2 = some RegError.duplicateDialect ∧
    (scienceInitialize (scienceInitialize []).1).1 = (scienceInitialize []).1 :=
  c1_initialize_twice_fails []

/-- C2: resolution splits the qualified name at the first dot, looks up the
dialect under the prefix, then the local name in the matching table; after
the science dialect registers, science.tensor resolves to the registered
tensor descriptor, the unregistered science.matrix fails with notFound, and
science.matmul resolves to the registered operation descriptor. -/
theorem c2_resolution (dc lc : List Char) (reg : Registry) (h : '.' ∉ dc) :
    (resolveType reg (String.mk (dc ++ '.' :: lc)) =
      match lookupDialect reg (String.mk dc) with
      | none => .error RegError.notFound
      | some e =>
        match lookupType e.types (String.mk lc) with
        | none => .error RegError.notFound
        | some td => .ok td) ∧
    (resolveOperation reg (String.mk (dc ++ '.' :: lc)) =
      match lookupDialect reg (String.mk dc) with
      | none => .error RegError.notFound
      | some e =>
        match lookupOp e.ops (String.mk lc) with
        | none => .error RegError.notFound
        | some od => .ok od) ∧
    resolveType scienceRegistry "science.tensor" = .ok tensorDesc ∧
    resolveType scienceRegistry "science.matrix" = .error RegError.notFound ∧
    resolveOperation scienceRegistry "science.matmul" = .ok matmulDesc := by
  refine ⟨?_, ?_, rfl, rfl, rfl⟩
  · unfold resolveType
    rw [splitQualified_append dc lc h]
  · unfold resolveOperation
    rw [splitQualified_append dc lc h]

/-- Witness for C2: resolution of a one-character dialect and local name in
the empty registry, via the general split statement. -/
theorem c2_witness :
    resolveType [] (String.mk (['a'] ++ '.' :: ['b'])) = .error RegError.notFound :=
  (c2_resolution ['a'] ['b'] [] (by decide)).1

/-- C3: verification runs the arity, attribute and trait steps in order,
accumulating all their violations without short-circuiting, and the custom
verifier hook runs exactly when those structural steps found nothing. -/
theorem c3_verify_order (d : OperationDescriptor) (i : OpInstance) :
    (structuralViolations d i = [] → verify d i = d.verifier i) ∧
    (structuralViolations d i ≠ [] →
      verify d i =
        arityViolations d i ++ attrViolations d i ++ traitViolations d i) := by
  constructor
  · intro h
    unfold verify
    rw [h]
  · intro h
    unfold verify
    cases hs : structuralViolations d i with
    | nil => exact absurd hs h
    | cons a as => exact hs.symm

/-- Witness for C3: a one-operand instance of the variadic-minimum-2
operation has a structural violation, so verification reports the
accumulated structural list. -/
theorem c3_witness :
    verify vsumDesc vsumOne =
      arityViolations vsumDesc vsumOne ++ attrViolations vsumDesc vsumOne ++
        traitViolations vsumDesc vsumOne :=
  (c3_verify_order vsumDesc vsumOne).2 (by decide)

/-- C4: attributes present on an instance but not declared in the schema
never contribute an attribute violation; a declared attribute that is absent
is a violation exactly when marked required; the matmul instance with its
required precision attribute verifies with zero violations, and the same
instance without it verifies with exactly one violation citing the missing
required attribute. -/
theorem c4_attribute_policy :
    (∀ (d : OperationDescriptor) (no rs : Nat) (n v : String)
      (attrs : List (String × String)), (∀ a ∈ d.attrSchema, a.name ≠ n) →
      attrViolations d ⟨no, rs, (n, v) :: attrs⟩ = attrViolations d ⟨no, rs, attrs⟩) ∧
    (∀ (decl : AttrDecl) (attrs : List (String × String)),
      assocLookup attrs decl.name = none →
      attrCheckOne decl attrs =
        if decl.required then [InvariantViolation.missingAttr decl.name] else []) ∧
    verify matmulDesc matmulOk = [] ∧
    verify matmulDesc matmulMissing = [InvariantViolation.missingAttr "precision"] := by
  refine ⟨?_, ?_, rfl, rfl⟩
  · intro d no rs n v attrs h
    unfold attrViolations
    exact attrFold_congr d.attrSchema _ _
      (fun a ha => attrCheckOne_undeclared a n v attrs (h a ha))
  · intro decl attrs h
    unfold attrCheckOne
    rw [h]

/-- Witness for C4: adding an undeclared attribute to the valid matmul
instance leaves its attribute violations unchanged. -/
theorem c4_witness :
    attrViolations matmulDesc ⟨2, 1, ("extra", "i64") :: [("precision", "string")]⟩ =
      attrViolations matmulDesc ⟨2, 1, [("precision", "string")]⟩ :=
  c4_attribute_policy.1 matmulDesc 2 1 "extra" "i64" [("precision", "string")]
    (by decide)

/-- C5: for a descriptor with variadic operands and minimum count 2, an
instance with exactly 2 operands has no operand-arity violation and an
instance with exactly 1 operand has exactly one; concretely the vsum
descriptor verifies clean at 2 operands and reports exactly the one arity
violation at 1 operand. -/
theorem c5_variadic_min_boundary :
    (∀ (d : OperationDescriptor) (i : OpInstance),
      d.operandArity = AritySpec.variadicMin 2 →
      (i.numOperands = 2 →
        arityCheck d.operandArity i.numOperands "operands" = []) ∧
      (i.numOperands = 1 →
        arityCheck d.operandArity i.numOperands "operands" =
          [InvariantViolation.arity "operands"])) ∧
    verify vsumDesc vsumTwo = [] ∧
    verify vsumDesc vsumOne = [InvariantViolation.arity "operands"] := by
  refine ⟨?_, rfl, rfl⟩
  intro d i h
  constructor
  · intro h2
    rw [h, h2]
    decide
  · intro h1
    rw [h, h1]
    decide

/-- Witness for C5: the vsum descriptor at exactly 2 operands has no
operand-arity violation. -/
theorem c5_witness :
    arityCheck vsumDesc.operandArity vsumTwo.numOperands "operands" = [] :=
  ((c5_variadic_min_boundary.1 vsumDesc vsumTwo) rfl).1 rfl

/-- C6: table registration fails with the duplicate error exactly when a
descriptor of the same name already exists in that table, otherwise inserts
the descriptor so that it is found under its name; the operation table
follows the same policy in a separate namespace, so registering a type whose
name coincides with an operation's succeeds and leaves the operation table
untouched. -/
theorem c6_register_policy :
    (∀ (tbl : List TypeDescriptor) (d : TypeDescriptor),
      registerType tbl d = .error RegError.duplicateType ↔
        ∃ t ∈ tbl, t.name = d.name) ∧
    (∀ (tbl : List TypeDescriptor) (d : TypeDescriptor),
      lookupType tbl d.name = none →
      registerType tbl d = .ok (tbl ++ [d]) ∧
        lookupType (tbl ++ [d]) d.name = some d) ∧
    (∀ (tbl : List OperationDescriptor) (d : OperationDescriptor),
      registerOp tbl d = .error RegError.duplicateOperation ↔
        ∃ t ∈ tbl, t.name = d.name) ∧
    (∀ (e : DialectEntry) (d : TypeDescriptor) (e' : DialectEntry),
      entryRegisterType e d = .ok e' → e'.ops = e.ops) ∧
    entryRegisterType ⟨[], [matmulDesc]⟩ matmulTypeDesc =
      .ok ⟨[matmulTypeDesc], [matmulDesc]⟩ := by
  refine ⟨?_, ?_, ?_, ?_, rfl⟩
  · intro tbl d
    exact registerBy_error_iff TypeDescriptor.name RegError.duplicateType tbl d
  · intro tbl d h
    refine ⟨registerBy_ok TypeDescriptor.name RegError.duplicateType tbl d h, ?_⟩
    show lookupBy TypeDescriptor.name (tbl ++ [d]) d.name = some d
    rw [lookupBy_append_of_none TypeDescriptor.name tbl [d] d.name h]
    simp [lookupBy]
  · intro tbl d
    exact registerBy_error_iff OperationDescriptor.name RegError.duplicateOperation tbl d
  · intro e d e' h
    unfold entryRegisterType at h
    cases hr : registerType e.types d with
    | error err =>
      rw [hr] at h
      exact Except.noConfusion h
    | ok ts =>
      rw [hr] at h
      injection h with h'
      rw [← h']

/-- Witness for C6: registering the tensor type into an empty table succeeds
and the descriptor is then found under its name. -/
theorem c6_witness :
    registerType [] tensorDesc = .ok ([] ++ [tensorDesc]) ∧
      lookupType ([] ++ [tensorDesc]) tensorDesc.name = some tensorDesc :=
  c6_register_policy.2.1 [] tensorDesc rfl

/-- C7: for every registration sequence in which each dialect id and each
(dialect, local name) pair is registered at most once (successful completion
of the sequence enforces both), resolving the qualified name dialect.name
over the resulting registry returns the identical descriptor that was
registered, for types and for operations, and table-level lookup by local
name does the same; lookups and resolves are pure functions of the registry,
so repeated calls agree. -/
theorem c7_resolve_stability :
    (∀ (entries : List (String × DialectEntry)) (reg : Registry)
      (dc : List Char) (e : DialectEntry)
      (tds : List TypeDescriptor) (ods : List OperationDescriptor),
      registerDialectsAll [] entries = (reg, none) →
      (String.mk dc, e) ∈ entries → '.' ∉ dc →
      registerAllBy TypeDescriptor.name RegError.duplicateType [] tds = .ok e.types →
      registerAllBy OperationDescriptor.name RegError.duplicateOperation [] ods =
        .ok e.ops →
      (∀ d ∈ tds,
        resolveType reg (String.mk (dc ++ '.' :: d.name.data)) = .ok d) ∧
      (∀ d ∈ ods,
        resolveOperation reg (String.mk (dc ++ '.' :: d.name.data)) = .ok d)) ∧
    (∀ (ds tbl : List TypeDescriptor),
      registerAllBy TypeDescriptor.name RegError.duplicateType [] ds = .ok tbl →
      ∀ d ∈ ds, lookupType tbl d.name = some d) ∧
    (∀ (ds tbl : List OperationDescriptor),
      registerAllBy OperationDescriptor.name RegError.duplicateOperation [] ds =
        .ok tbl →
      ∀ d ∈ ds, lookupOp tbl d.name = some d) := by
  refine ⟨?_, ?_, ?_⟩
  · intro entries reg dc e tds ods hreg hmem hdot hts hos
    have hld : lookupDialect reg (String.mk dc) = some e :=
      registerDialectsAll_lookup entries [] reg (String.mk dc) e hreg hmem
    constructor
    · intro d hd
      exact resolveType_eval reg dc d.name e d hdot hld
        (registerAllBy_lookup TypeDescriptor.name RegError.duplicateType tds []
          e.types hts d hd)
    · intro d hd
      exact resolveOperation_eval reg dc d.name e d hdot hld
        (registerAllBy_lookup OperationDescriptor.name RegError.duplicateOperation
          ods [] e.ops hos d hd)
  · intro ds tbl h d hd
    exact registerAllBy_lookup TypeDescriptor.name RegError.duplicateType ds [] tbl h d hd
  · intro ds tbl h d hd
    exact registerAllBy_lookup OperationDescriptor.name RegError.duplicateOperation
      ds [] tbl h d hd

/-- Witness for C7: after the registration sequence that registers the
science dialect once, resolving the qualified name science.tensor over the
resulting registry returns the identical registered tensor descriptor. -/
theorem c7_witness :
    resolveType [("science", scienceEntry)] "science.tensor" = .ok tensorDesc :=
  (c7_resolve_stability.1 [("science", scienceEntry)] [("science", scienceEntry)]
      "science".data scienceEntry scienceTypeList scienceOpList rfl
      (List.mem_singleton_self _) (by decide) rfl rfl).1 tensorDesc
    (List.mem_singleton_self tensorDesc)

/-- C8: every type descriptor registered by the science dialect that
declares itself round-trippable satisfies the round-trip law: parsing the
printed form of any parameter list that passed construction-time validation
yields the parameters back. -/
theorem c8_round_trip :
    ∀ d ∈ scienceTypeList, d.roundTrippable = true → RoundTripOK d := by
  intro d hd _
  have hd' : d ∈ [tensorDesc] := hd
  have he : d = tensorDesc := List.mem_singleton.mp hd'
  subst he
  exact tensorDesc_roundTrip

/-- Witness for C8: the tensor printer and parser round-trip the parameter
list with rank 5. -/
theorem c8_witness : tensorDesc.parser (tensorDesc.printer [5]) = some [5] :=
  c8_round_trip tensorDesc (List.mem_singleton_self tensorDesc) rfl [5] rfl

/-- C9: in the initializer's registration sequence every operation kind of
the generated operation list is registered strictly before any type kind of
the generated typedef list; no execution of initialize registers a type
before every operation has been registered. -/
theorem c9_operations_before_types :
    ∀ (i j : Fin initializeTrace.length),
      isOpEvent (initializeTrace.get i) = true →
      isTyEvent (initializeTrace.get j) = true →
      (i : Nat) < (j : Nat) := by
  decide

/-- Witness for C9: the first operation event precedes the first type
event. -/
theorem c9_witness : (opIdx : Nat) < (tyIdx : Nat) :=
  c9_operations_before_types opIdx tyIdx (by decide) (by decide)

/-- C10: the initializer touches only the science dialect's registry entry:
the lookup of every other dialect id is unchanged, and the whole registry is
either unchanged or extended by exactly the science entry. -/
theorem c10_initialize_frame (reg : Registry) (id : String) (h : id ≠ "science") :
    lookupDialect (scienceInitialize reg).1 id = lookupDialect reg id ∧
    ((scienceInitialize reg).1 = reg ∨
      (scienceInitialize reg).1 = ("science", scienceEntry) :: reg) := by
  cases hs : lookupDialect reg "science" with
  | some e =>
    have h1 : scienceInitialize reg = (reg, some RegError.duplicateDialect) := by
      unfold scienceInitialize registerDialect
      rw [hs]
    rw [h1]
    exact ⟨rfl, Or.inl rfl⟩
  | none =>
    have h1 : scienceInitialize reg = (("science", scienceEntry) :: reg, none) := by
      unfold scienceInitialize registerDialect
      rw [hs]
    rw [h1]
    refine ⟨?_, Or.inr rfl⟩
    show assocLookup (("science", scienceEntry) :: reg) id = assocLookup reg id
    exact assocLookup_cons_ne "science" id scienceEntry reg (fun e => h e.symm)

/-- Witness for C10: registering into the empty registry leaves the lookup
of another dialect id unchanged. -/
theorem c10_witness :
    lookupDialect (scienceInitialize []).1 "affine" = lookupDialect [] "affine" ∧
    ((scienceInitialize []).1 = [] ∨
      (scienceInitialize []).1 = [("science", scienceEntry)]) :=
  c10_initialize_frame [] "affine" (by decide)
